import Mathlib

/-!
Verification of the podcast-app-frontend playback core.

The definitions below are a shallow embedding of the TypeScript source:
* the announcement engine (`useSpeechAnnouncement`: `announcePodcastNameAndWait`,
  `cancelAnnouncement`, utterance event handling),
* the progress store (`useProgressPersistence`: `handleListen`, `getSavedProgress`),
* the episode sequencer (`EpisodeList`: `handleNext`, `handlePrevious`,
  `currentEpisode`), and
* the playback coordinator (`PodcastPlayer`: `handleCanPlay`, `handlePlay`,
  `handleEnded`, and the `useMediaSession` hardware-skip handlers).

JavaScript numbers used as indices are modelled by `JSNum` (an integer or NaN,
since `x % 0` is NaN in JavaScript); times and offsets are modelled by `ℚ`.
Event-loop concurrency is modelled by interleaving the atomic segments of the
async handlers: a handler runs without preemption from its entry to its first
`await`, so the code before the `await announce(...)` call is one atomic step
and the code after it is another.
-/

namespace Podcast

/-- A JavaScript number used as an episode index: either an integer or NaN
(`(i + 1) % 0` is NaN, as is `NaN - 1`). -/
inductive JSNum where
  | nan : JSNum
  | int : Int → JSNum
deriving DecidableEq, Repr

/-- JavaScript `x + 1` on an index. -/
def jsAdd1 : JSNum → JSNum
  | .nan => .nan
  | .int i => .int (i + 1)

/-- JavaScript `x - 1` on an index. -/
def jsSub1 : JSNum → JSNum
  | .nan => .nan
  | .int i => .int (i - 1)

/-- JavaScript `x % n` for a number `x` and a nonnegative length `n`:
NaN when the dividend is NaN or the divisor is `0`; otherwise the remainder
truncated toward zero (`Int.tmod`), which is what JS `%` computes. -/
def jsMod : JSNum → Nat → JSNum
  | .nan, _ => .nan
  | .int _, 0 => .nan
  | .int i, n + 1 => .int (Int.tmod i ((n : Int) + 1))

/-- An episode record as delivered by the backend and consumed by
`EpisodeList`: `{ id, source, audioUrl, image?, pubDate? }`. -/
structure Episode where
  id : String
  source : String
  audioUrl : String
  image : Option String := none
  pubDate : Option String := none
deriving DecidableEq, Repr

/-- The episode sequencer state held by `EpisodeList`:
`episodes` and `currentIndex`. -/
structure SeqState where
  episodes : List Episode
  currentIndex : JSNum
deriving DecidableEq, Repr

/-- `EpisodeList.handleNext`: `setCurrentIndex((prev) => (prev + 1) % episodes.length)`. -/
def handleNext (s : SeqState) : SeqState :=
  { s with currentIndex := jsMod (jsAdd1 s.currentIndex) s.episodes.length }

/-- `EpisodeList.handlePrevious`:
`setCurrentIndex((prev) => (prev === 0 ? episodes.length - 1 : prev - 1))`.
(`NaN === 0` is false, so a NaN index falls to the `prev - 1` branch.) -/
def handlePrevious (s : SeqState) : SeqState :=
  { s with currentIndex :=
      if s.currentIndex = .int 0 then .int ((s.episodes.length : Int) - 1)
      else jsSub1 s.currentIndex }

/-- `EpisodeList`: `const currentEpisode = episodes[currentIndex] ?? null;`
(out-of-range or NaN subscription yields `undefined`, hence `null`). -/
def currentEpisode (s : SeqState) : Option Episode :=
  match s.currentIndex with
  | .nan => none
  | .int i =>
      if h : 0 ≤ i ∧ i.toNat < s.episodes.length then
        some (s.episodes.get ⟨i.toNat, h.2⟩)
      else none

/-! ### Announcement engine (`useSpeechAnnouncement.ts`) -/

/-- The resolution values of `announcePodcastNameAndWait`:
`'ended' | 'interrupted'` (the spec calls `'ended'` "completed"). -/
inductive AnnounceResult where
  | ended : AnnounceResult
  | interrupted : AnnounceResult
deriving DecidableEq, Repr

/-- Utterance lifecycle events that the engine listens for. -/
inductive UtteranceEvent where
  | evEnd : UtteranceEvent
  | evError : UtteranceEvent
  | evPause : UtteranceEvent
  | evAbort : UtteranceEvent
deriving DecidableEq, Repr

/-- How the four `utterance.addEventListener` registrations resolve the
pending promise: `end` and `error` resolve `'ended'`, `pause` and `abort`
resolve `'interrupted'`. -/
def handleEndOrAbort : UtteranceEvent → AnnounceResult
  | .evEnd => .ended
  | .evError => .ended
  | .evPause => .interrupted
  | .evAbort => .interrupted

/-- The host locale's date formatting, abstracting
`toLocaleDateString(undefined, { weekday: 'long' })` and
`toLocaleTimeString(undefined, { hour: 'numeric', minute: '2-digit', hour12: true })`
applied to `new Date(pubDate)`. -/
structure DateFmt where
  weekday : String → String
  timeStr : String → String

/-- The text construction inside `announcePodcastNameAndWait`. -/
def announceText (fmt : DateFmt) (name : String) (isContinuing : Bool)
    (pubDate : Option String) (skipPrefix : Bool) : String :=
  if skipPrefix then
    name
  else
    match pubDate with
    | some pd =>
        let dayOfWeek := fmt.weekday pd
        let timeString := fmt.timeStr pd
        if isContinuing then
          "Continuing " ++ name ++ ", from " ++ dayOfWeek ++ " at " ++ timeString ++ "."
        else
          "From " ++ name ++ ", on " ++ dayOfWeek ++ " at " ++ timeString ++ "."
    | none => "From " ++ name ++ "."

/-- The module-level state of the speech engine: the global `isAnnouncing`
busy flag, whether `'speechSynthesis' in window` holds, the utterances
passed to `speechSynthesis.speak` so far, and how often
`speechSynthesis.cancel()` has run. -/
structure EngineState where
  isAnnouncing : Bool
  speechAvailable : Bool
  utterances : List String
  cancels : Nat
deriving DecidableEq, Repr

/-- How one call to `announcePodcastNameAndWait` returns: resolved at once
with a result (guard branch), or a new utterance was created and spoken and
the promise awaits an utterance event. -/
inductive AnnounceOutcome where
  | immediate : AnnounceResult → AnnounceOutcome
  | speaking : String → AnnounceOutcome
deriving DecidableEq, Repr

/-- `announcePodcastNameAndWait(name, isContinuing, pubDate, skipPrefix)`:
`if (isAnnouncing || !('speechSynthesis' in window)) return 'ended';` —
otherwise set `isAnnouncing = true`, call `speechSynthesis.cancel()`, build
the text, and `speechSynthesis.speak` a new utterance. -/
def announcePodcastNameAndWait (fmt : DateFmt) (s : EngineState) (name : String)
    (isContinuing : Bool) (pubDate : Option String) (skipPrefix : Bool) :
    EngineState × AnnounceOutcome :=
  if s.isAnnouncing || !s.speechAvailable then
    (s, .immediate .ended)
  else
    let text := announceText fmt name isContinuing pubDate skipPrefix
    ({ s with isAnnouncing := true,
              cancels := s.cancels + 1,
              utterances := s.utterances ++ [text] },
     .speaking text)

/-- Resolution of a pending utterance by a lifecycle event:
`handleEndOrAbort` clears `isAnnouncing` and resolves with the mapped result. -/
def resolveUtterance (s : EngineState) (e : UtteranceEvent) :
    EngineState × AnnounceResult :=
  ({ s with isAnnouncing := false }, handleEndOrAbort e)

/-- The hook's `cancelAnnouncement`:
`speechSynthesis.cancel(); isAnnouncing = false;`. -/
def cancelAnnouncement (s : EngineState) : EngineState :=
  { s with isAnnouncing := false, cancels := s.cancels + 1 }

/-! ### Progress store (`useProgressPersistence.ts`)

`localStorage` entries under keys `progress_${audioUrl}` are modelled by a
map `String → Option ℚ` (JS number-to-string round-trips its value exactly,
so the stored string is identified with the stored offset). The pending
`saveTimeout` is modelled by the absolute time at which it will fire:
`SAVE_INTERVAL_MS` (5000 ms, i.e. 5 s) after the write that armed it. -/

/-- The key under which progress for `audioUrl` is stored:
`` `progress_${audioUrl}` ``. -/
def progressKey (audioUrl : String) : String := "progress_" ++ audioUrl

/-- `SAVE_INTERVAL_MS`, in seconds. -/
def SAVE_INTERVAL : ℚ := 5

/-- Store state: the persisted entries and the time at which a pending
`saveTimeout` fires (`none` when `saveTimeout.current` is null). -/
structure StoreState where
  entries : String → Option ℚ
  throttleUntil : Option ℚ

/-- Whether `saveTimeout.current` is non-null at time `now`: a timeout armed
at `t₀` is pending exactly while `now < t₀ + SAVE_INTERVAL`. -/
def throttled (now : ℚ) (s : StoreState) : Bool :=
  match s.throttleUntil with
  | some u => decide (now < u)
  | none => false

/-- `handleListen` at time `now` with the current `audioUrl` and the audio
element's `currentTime`: bail out when there is no url or a pending
`saveTimeout`; else write the entry and arm the timeout for 5 seconds. -/
def handleListen (now : ℚ) (audioUrl : Option String) (currentTime : ℚ)
    (s : StoreState) : StoreState :=
  match audioUrl with
  | none => s
  | some url =>
      if throttled now s then s
      else
        { entries := fun k => if k = progressKey url then some currentTime else s.entries k,
          throttleUntil := some (now + SAVE_INTERVAL) }

/-- `getSavedProgress`: `0` with no url; otherwise
`savedTime ? Number(savedTime) : 0`. -/
def getSavedProgress (audioUrl : Option String) (s : StoreState) : ℚ :=
  match audioUrl with
  | none => 0
  | some url => (s.entries (progressKey url)).getD 0

/-- `clearProgress`: `localStorage.removeItem(`progress_${audioUrl}`)` when
the url is present (the empty string is falsy in `if (audioUrl)`). -/
def clearProgress (audioUrl : Option String) (s : StoreState) : StoreState :=
  match audioUrl with
  | none => s
  | some url =>
      { s with entries := fun k => if k = progressKey url then none else s.entries k }

/-! ### Playback coordinator (`PodcastPlayer.tsx`)

`handleCanPlay` and `handlePlay` are `async` functions.  JavaScript runs each
without preemption from entry to its first `await` — here the
`await announce(...)` — so each handler splits into two atomic segments: the
guarded prefix (flag check-and-set, `pause()`, progress read, `announce`
call) and the post-await suffix (seek, result branch, `play()`). -/

/-- The arguments of one `announce(name, isContinuing, pubDate, skipPrefix)`
invocation made by the coordinator. -/
structure AnnounceArgs where
  name : String
  isContinuing : Bool
  pubDate : Option String
  skipPrefix : Bool
deriving DecidableEq, Repr

/-- Per-activation coordinator state: the refs (`announcedRef`,
`skipJustHappenedRef`, `userPlayedRef`), whether the single-use `canplay`
listener is attached, the audio element's observable effects (`pause()` and
`play()` call counts, `currentTime`), the saved offset `getSavedProgress()`
returns for the active episode, the `announce` invocations made so far, and
the embedded engine state. -/
structure PlayerState where
  announcedRef : Bool
  skipJustHappened : Bool
  userPlayed : Bool
  listenerAttached : Bool
  pauseCalls : Nat
  playCalls : Nat
  currentTime : ℚ
  savedProgress : ℚ
  announceCalls : List AnnounceArgs
  engine : EngineState
deriving Repr

/-- The atomic prefix of `handleCanPlay`, up to `await announce(...)`:
if `hasAnnounced()` then clear the skip flag, detach the listener and return;
else `setAnnouncedFlag()`, `audioEl.pause()`, read `getSavedProgress()` and
call `announce(source, progress > 2, pubDate)`. -/
def handleCanPlayPrefix (fmt : DateFmt) (source : String) (pubDate : Option String)
    (s : PlayerState) : PlayerState :=
  if s.announcedRef then
    { s with skipJustHappened := false, listenerAttached := false }
  else
    let progress := s.savedProgress
    let eng := (announcePodcastNameAndWait fmt s.engine source
                  (decide (2 < progress)) pubDate false).1
    { s with announcedRef := true,
             pauseCalls := s.pauseCalls + 1,
             announceCalls := s.announceCalls ++ [⟨source, decide (2 < progress), pubDate, false⟩],
             engine := eng }

/-- The post-await suffix of `handleCanPlay`: `if (progress > 0)` seek to the
saved offset, then `play()` only when the result is `'ended'`; finally clear
the skip flag and detach the listener. -/
def handleCanPlaySuffix (result : AnnounceResult) (s : PlayerState) : PlayerState :=
  let s1 := if 0 < s.savedProgress then { s with currentTime := s.savedProgress } else s
  let s2 := if result = .ended then { s1 with playCalls := s1.playCalls + 1 } else s1
  { s2 with skipJustHappened := false, listenerAttached := false }

/-- The atomic prefix of `handlePlay`, up to `await announce(...)`: set
`userPlayedRef`, then if `hasAnnounced()` return; else `setAnnouncedFlag()`,
`audioEl.pause()`, read `getSavedProgress()` and call
`announce(source, progress > 2, pubDate)`. -/
def handlePlayPrefix (fmt : DateFmt) (source : String) (pubDate : Option String)
    (s : PlayerState) : PlayerState :=
  let s := { s with userPlayed := true }
  if s.announcedRef then s
  else
    let progress := s.savedProgress
    let eng := (announcePodcastNameAndWait fmt s.engine source
                  (decide (2 < progress)) pubDate false).1
    { s with announcedRef := true,
             pauseCalls := s.pauseCalls + 1,
             announceCalls := s.announceCalls ++ [⟨source, decide (2 < progress), pubDate, false⟩],
             engine := eng }

/-- The post-await suffix of `handlePlay`: `if (progress > 0)` seek to the
saved offset, then `play()` only when the result is `'ended'`. -/
def handlePlaySuffix (result : AnnounceResult) (s : PlayerState) : PlayerState :=
  let s1 := if 0 < s.savedProgress then { s with currentTime := s.savedProgress } else s
  if result = .ended then { s1 with playCalls := s1.playCalls + 1 } else s1

/-- The two trigger paths that race for the announcement slot of one
activation. -/
inductive TriggerPath where
  | canPlay : TriggerPath
  | userPlay : TriggerPath
deriving DecidableEq, Repr

/-- Run the guarded prefix of one trigger path. -/
def runPrefix (fmt : DateFmt) (source : String) (pubDate : Option String) :
    TriggerPath → PlayerState → PlayerState
  | .canPlay => handleCanPlayPrefix fmt source pubDate
  | .userPlay => handlePlayPrefix fmt source pubDate

/-- Run a whole interleaving of guarded prefixes (in event-loop order). -/
def runPrefixes (fmt : DateFmt) (source : String) (pubDate : Option String)
    (ps : List TriggerPath) (s : PlayerState) : PlayerState :=
  ps.foldl (fun s p => runPrefix fmt source pubDate p s) s

/-! ### Composed application state (`EpisodeList` + `PodcastPlayer` +
`useMediaSession`) -/

/-- An action scheduled with `setTimeout`. -/
inductive ScheduledAction where
  | playAttempt : ScheduledAction
deriving DecidableEq, Repr

/-- State of the composed app: the sequencer held by `EpisodeList`, the
progress store, the `skipJustHappenedRef`, the speech engine, the
coordinator's farewell `announce` invocations, and actions scheduled with
`setTimeout` (delay in ms, action). -/
structure AppState where
  seq : SeqState
  store : StoreState
  skipJustHappened : Bool
  engine : EngineState
  announceCalls : List AnnounceArgs
  scheduled : List (Nat × ScheduledAction)

/-- The farewell text spoken when the last episode ends. -/
def farewellText : String := "That's all for today. See you next time!"

/-- `PodcastPlayer.handleEnded`, generic in the props it closes over:
`clearProgress(); if (onEnded) onEnded(); if (isLastEpisode) { await
announce(farewell, false, undefined, true); return; } if (onClickNext) {
skipJustHappenedRef.current = true; onClickNext(); }`.
`isLastEpisode` is an optional prop, so an omitted prop is `none` and
`if (isLastEpisode)` reads its value as false. -/
def handleEnded (fmt : DateFmt) (audioUrl : Option String)
    (isLastEpisode : Option Bool)
    (onEnded onClickNext : Option (AppState → AppState)) (s : AppState) : AppState :=
  let s := { s with store := clearProgress audioUrl s.store }
  let s := match onEnded with
    | some f => f s
    | none => s
  if isLastEpisode.getD false then
    let eng := (announcePodcastNameAndWait fmt s.engine farewellText false none true).1
    { s with engine := eng,
             announceCalls := s.announceCalls ++ [⟨farewellText, false, none, true⟩] }
  else
    match onClickNext with
    | some f => f { s with skipJustHappened := true }
    | none => s

/-- The `audioUrl` prop that `EpisodeList` passes:
`currentEpisode?.audioUrl ?? ''`, read through the falsiness check
`if (audioUrl)` (the empty string is falsy). -/
def audioUrlProp (s : SeqState) : Option String :=
  (currentEpisode s).bind (fun e => if e.audioUrl = "" then none else some e.audioUrl)

/-- `EpisodeList.handleNext` as the callback `EpisodeList` hands to the
player (`onClickNext`, and also `onEnded`). -/
def seqAdvanceCB (s : AppState) : AppState := { s with seq := handleNext s.seq }

/-- `EpisodeList.handlePrevious` as the `onClickPrevious` callback. -/
def seqRetreatCB (s : AppState) : AppState := { s with seq := handlePrevious s.seq }

/-- `handleEnded` as wired by `EpisodeList`:
`<PodcastPlayer ... onClickNext={handleNext} onClickPrevious={handlePrevious}
onEnded={handleNext} />` — no `isLastEpisode` prop is passed. -/
def episodeListHandleEnded (fmt : DateFmt) (s : AppState) : AppState :=
  handleEnded fmt (audioUrlProp s.seq) none (some seqAdvanceCB) (some seqAdvanceCB) s

/-! ### Media-session handlers (`useMediaSession.ts`) -/

/-- The `'previoustrack'` action handler: when `onClickPrevious` exists, set
`skipJustHappenedRef.current = true`, `cancelAnnouncement()`, call
`onClickPrevious()`, and
`setTimeout(() => audioRef...play().catch(...), 250)`. -/
def previousTrackHandler (onClickPrevious : Option (AppState → AppState))
    (s : AppState) : AppState :=
  match onClickPrevious with
  | none => s
  | some f =>
      let s := { s with skipJustHappened := true }
      let s := { s with engine := cancelAnnouncement s.engine }
      let s := f s
      { s with scheduled := s.scheduled ++ [(250, .playAttempt)] }

/-- The `'nexttrack'` action handler: when `onClickNext` exists, set
`skipJustHappenedRef.current = true`, `cancelAnnouncement()`, call
`onClickNext()`, and schedule a play attempt after 250 ms. -/
def nextTrackHandler (onClickNext : Option (AppState → AppState))
    (s : AppState) : AppState :=
  match onClickNext with
  | none => s
  | some f =>
      let s := { s with skipJustHappened := true }
      let s := { s with engine := cancelAnnouncement s.engine }
      let s := f s
      { s with scheduled := s.scheduled ++ [(250, .playAttempt)] }

/-- The `'previoustrack'` handler as wired in the app
(`onClickPrevious = EpisodeList.handlePrevious`). -/
def mediaPreviousTrack (s : AppState) : AppState :=
  previousTrackHandler (some seqRetreatCB) s

/-- The `'nexttrack'` handler as wired in the app
(`onClickNext = EpisodeList.handleNext`). -/
def mediaNextTrack (s : AppState) : AppState :=
  nextTrackHandler (some seqAdvanceCB) s

/-! ### Concrete sample data used by the closed witness theorems -/

/-- A concrete locale formatter for closed evaluations. -/
def fmtW : DateFmt := ⟨fun _ => "Monday", fun _ => "9:00 AM"⟩

/-- Sample episode A. -/
def epA : Episode := ⟨"idA", "A", "a.mp3", none, none⟩

/-- Sample episode B. -/
def epB : Episode := ⟨"idB", "B", "b.mp3", none, some "2025-01-07T09:00:00Z"⟩

/-- Sample episode C. -/
def epC : Episode := ⟨"idC", "C", "c.mp3", none, none⟩

/-! ### Sequencer theorems -/

/-- `handleNext` leaves the episode list untouched. -/
lemma handleNext_episodes (s : SeqState) : (handleNext s).episodes = s.episodes := rfl

/-- `jsMod` on an integer with a positive modulus is euclidean mod. -/
lemma jsMod_int_pos (i : ℤ) (n : ℕ) (hn : 0 < n) (hi : 0 ≤ i) :
    jsMod (.int i) n = .int (i % (n : ℤ)) := by
  obtain ⟨m, rfl⟩ : ∃ m, n = m + 1 := ⟨n - 1, (Nat.succ_pred_eq_of_pos hn).symm⟩
  show JSNum.int (Int.tmod i ((m : ℤ) + 1)) = _
  rw [Int.tmod_eq_emod hi (by positivity)]
  norm_num

/-- Iterating `handleNext` from a valid index tracks `(i + k) % n`. -/
lemma handleNext_iterate (s : SeqState) (n : ℕ) (i : ℤ) (k : ℕ)
    (hn : s.episodes.length = n) (hpos : 0 < n)
    (hidx : s.currentIndex = .int i) (h0 : 0 ≤ i) (hlt : i < (n : ℤ)) :
    (handleNext^[k] s).episodes = s.episodes ∧
    (handleNext^[k] s).currentIndex = .int ((i + k) % (n : ℤ)) := by
  induction k with
  | zero =>
      refine ⟨rfl, ?_⟩
      simpa [hidx] using congrArg JSNum.int (Int.emod_eq_of_lt h0 hlt).symm
  | succ k ih =>
      obtain ⟨hep, hix⟩ := ih
      rw [Function.iterate_succ_apply']
      refine ⟨hep, ?_⟩
      have hlen : (handleNext^[k] s).episodes.length = n := by rw [hep, hn]
      have hmn : ((n : ℤ)) ≠ 0 := by positivity
      have hnn : 0 ≤ (i + k) % (n : ℤ) := Int.emod_nonneg _ hmn
      show jsMod (jsAdd1 (handleNext^[k] s).currentIndex) (handleNext^[k] s).episodes.length
        = .int ((i + (k + 1 : ℕ)) % (n : ℤ))
      rw [hix, hlen]
      show jsMod (.int ((i + k) % (n : ℤ) + 1)) n = _
      rw [jsMod_int_pos _ n hpos (by omega)]
      rw [Int.emod_add_emod]
      push_cast
      ring_nf

/-- Claim C5: on a non-empty list of length `n`, `advance` (the
`EpisodeList.handleNext` index update `(prev + 1) % episodes.length`)
applied `n` times returns the index to its starting value, and `retreat`
(`handlePrevious`) from index 0 yields index `n - 1`. -/
theorem sequencer_wraparound (s : SeqState) (n : ℕ) (i : ℤ)
    (hn : s.episodes.length = n) (hpos : 0 < n)
    (hidx : s.currentIndex = .int i) (h0 : 0 ≤ i) (hlt : i < (n : ℤ)) :
    (handleNext^[n] s).currentIndex = .int i ∧
    (i = 0 → (handlePrevious s).currentIndex = .int ((n : ℤ) - 1)) := by
  constructor
  · have h := (handleNext_iterate s n i n hn hpos hidx h0 hlt).2
    rw [h]
    congr 1
    calc (i + (n : ℤ)) % (n : ℤ) = (i + (n : ℤ) * 1) % (n : ℤ) := by ring_nf
      _ = i % (n : ℤ) := Int.add_mul_emod_self_left i (n : ℤ) 1
      _ = i := Int.emod_eq_of_lt h0 hlt
  · intro hzero
    subst hzero
    simp [handlePrevious, hidx, hn]

/-- Witness for claim C5 at a concrete three-episode list. -/
theorem sequencer_wraparound_concrete :
    (handleNext^[3] (⟨[epA, epB, epC], .int 1⟩ : SeqState)).currentIndex = .int 1 ∧
    (handlePrevious (⟨[epA, epB, epC], .int 0⟩ : SeqState)).currentIndex = .int 2 := by
  refine ⟨(sequencer_wraparound ⟨[epA, epB, epC], .int 1⟩ 3 1 rfl (by decide) rfl
      (by decide) (by decide)).1, ?_⟩
  have h := (sequencer_wraparound ⟨[epA, epB, epC], .int 0⟩ 3 0 rfl (by decide) rfl
      (by decide) (by decide)).2 rfl
  simpa using h

/-- When the episode list is empty, `episodes[currentIndex] ?? null` is
`null` whatever the stored index is. -/
lemma currentEpisode_nil (s : SeqState) (h : s.episodes = []) :
    currentEpisode s = none := by
  unfold currentEpisode
  cases hix : s.currentIndex with
  | nan => rfl
  | int i => simp [h]

/-- Counterexample to claim C6 as stated: on the empty list at index 0,
`handlePrevious` stores `-1` and `handleNext` stores NaN — the stored index
does change. -/
theorem empty_list_index_changes :
    (handlePrevious (⟨[], .int 0⟩ : SeqState)).currentIndex ≠ .int 0 ∧
    (handleNext (⟨[], .int 0⟩ : SeqState)).currentIndex ≠ .int 0 := by
  decide

/-- Claim C6 as amended: on an empty episode list the derived current
episode is `none`, and it stays `none` after `handleNext` or
`handlePrevious`; but the stored index is changed: `handleNext` stores NaN
(`(prev + 1) % 0`), and `handlePrevious` from index 0 stores `-1`
(`episodes.length - 1`). -/
theorem empty_list_current_none (s : SeqState) (h : s.episodes = []) :
    currentEpisode s = none ∧
    currentEpisode (handleNext s) = none ∧
    currentEpisode (handlePrevious s) = none ∧
    (handleNext s).currentIndex = .nan ∧
    (s.currentIndex = .int 0 → (handlePrevious s).currentIndex = .int (-1)) := by
  refine ⟨currentEpisode_nil s h, currentEpisode_nil _ h, currentEpisode_nil _ h, ?_, ?_⟩
  · show jsMod (jsAdd1 s.currentIndex) s.episodes.length = .nan
    rw [h]
    cases s.currentIndex with
    | nan => rfl
    | int i => rfl
  · intro hzero
    simp [handlePrevious, hzero, h]

/-- Witness for the amended claim C6 at the concrete empty list. -/
theorem empty_list_current_none_concrete :
    currentEpisode (⟨[], .int 0⟩ : SeqState) = none ∧
    (handleNext (⟨[], .int 0⟩ : SeqState)).currentIndex = .nan ∧
    (handlePrevious (⟨[], .int 0⟩ : SeqState)).currentIndex = .int (-1) := by
  obtain ⟨h1, _, _, h4, h5⟩ := empty_list_current_none ⟨[], .int 0⟩ rfl
  exact ⟨h1, h4, h5 rfl⟩

/-! ### Progress store theorems -/

/-- Claim C7: a `save` that is not suppressed is immediately readable back
(`load(k) = t`), and any further `save` — for any key, the throttle is
global — issued within 5 seconds of it is dropped, leaving the store
unchanged, so `load(k)` still yields the first value. -/
theorem progress_save_then_load (s : StoreState) (now : ℚ) (url : String) (t : ℚ)
    (hfree : throttled now s = false) :
    getSavedProgress (some url) (handleListen now (some url) t s) = t ∧
    (∀ now2 url2 t2, now2 < now + SAVE_INTERVAL →
      handleListen now2 (some url2) t2 (handleListen now (some url) t s) =
        handleListen now (some url) t s ∧
      getSavedProgress (some url)
        (handleListen now2 (some url2) t2 (handleListen now (some url) t s)) = t) := by
  have hwrite : handleListen now (some url) t s =
      { entries := fun k => if k = progressKey url then some t else s.entries k,
        throttleUntil := some (now + SAVE_INTERVAL) } := by
    simp [handleListen, hfree]
  have hload : getSavedProgress (some url) (handleListen now (some url) t s) = t := by
    rw [hwrite]; simp [getSavedProgress]
  refine ⟨hload, ?_⟩
  intro now2 url2 t2 hlt
  set s1 := handleListen now (some url) t s with hs1
  have hthr : throttled now2 s1 = true := by
    rw [hwrite]; simp [throttled, hlt]
  have hdrop : handleListen now2 (some url2) t2 s1 = s1 := by
    simp [handleListen, hthr]
  exact ⟨hdrop, by rw [hdrop]; exact hload⟩

/-- Witness for claim C7: write 7 at time 0, attempt to write 9 (another
key) at time 3; the load still yields 7 and the state is unchanged. -/
theorem progress_save_then_load_concrete :
    getSavedProgress (some "a.mp3")
      (handleListen 0 (some "a.mp3") 7 (⟨fun _ => none, none⟩ : StoreState)) = 7 ∧
    handleListen 3 (some "b.mp3") 9
        (handleListen 0 (some "a.mp3") 7 (⟨fun _ => none, none⟩ : StoreState)) =
      handleListen 0 (some "a.mp3") 7 (⟨fun _ => none, none⟩ : StoreState) := by
  refine ⟨(progress_save_then_load ⟨fun _ => none, none⟩ 0 "a.mp3" 7 rfl).1, ?_⟩
  exact ((progress_save_then_load ⟨fun _ => none, none⟩ 0 "a.mp3" 7 rfl).2 3 "b.mp3" 9
    (by norm_num [SAVE_INTERVAL])).1

/-! ### Announcement engine theorems -/

/-- Claim C3: when the global busy flag is set or speech synthesis is
absent, `announcePodcastNameAndWait` leaves the engine untouched (no new
utterance) and resolves immediately as `'ended'`; and a synthesis `error`
event on an utterance also resolves the pending promise as `'ended'`. -/
theorem announce_busy_or_unavailable_noop (fmt : DateFmt) (s : EngineState)
    (name : String) (c : Bool) (pd : Option String) (sp : Bool)
    (h : s.isAnnouncing = true ∨ s.speechAvailable = false) :
    announcePodcastNameAndWait fmt s name c pd sp = (s, .immediate .ended) ∧
    handleEndOrAbort .evError = .ended := by
  refine ⟨?_, rfl⟩
  unfold announcePodcastNameAndWait
  rcases h with h | h <;> simp [h]

/-- Witness for claim C3 at a busy engine. -/
theorem announce_busy_or_unavailable_noop_concrete :
    announcePodcastNameAndWait fmtW (⟨true, true, [], 0⟩ : EngineState)
        "A" false none false = (⟨true, true, [], 0⟩, .immediate .ended) ∧
    handleEndOrAbort .evError = .ended :=
  announce_busy_or_unavailable_noop fmtW ⟨true, true, [], 0⟩ "A" false none false
    (Or.inl rfl)

/-- Claim C4: the text spoken by a non-short-circuited `announce` call is
exactly `name` when `skipPrefix` is set; with a publish date it is the
"Continuing …, from … at …." or "From …, on … at …." template with weekday
and localized time derived from the date; and with no date it is
"From {name}."; and the coordinator passes `isContinuing` exactly as
`progress > 2` in both the user-play and buffer-ready paths. -/
theorem announce_spoken_text (fmt : DateFmt) (s : EngineState) (name : String)
    (c : Bool) (pd : Option String) (sp : Bool)
    (hb : s.isAnnouncing = false) (ha : s.speechAvailable = true) :
    (announcePodcastNameAndWait fmt s name c pd sp).1.utterances =
      s.utterances ++ [announceText fmt name c pd sp] ∧
    announceText fmt name c pd true = name ∧
    (∀ d, announceText fmt name true (some d) false =
      "Continuing " ++ name ++ ", from " ++ fmt.weekday d ++ " at " ++ fmt.timeStr d ++ ".") ∧
    (∀ d, announceText fmt name false (some d) false =
      "From " ++ name ++ ", on " ++ fmt.weekday d ++ " at " ++ fmt.timeStr d ++ ".") ∧
    announceText fmt name c none false = "From " ++ name ++ "." ∧
    (∀ ps : PlayerState, ps.announcedRef = false →
      (handlePlayPrefix fmt name pd ps).announceCalls =
        ps.announceCalls ++ [⟨name, decide (2 < ps.savedProgress), pd, false⟩] ∧
      (handleCanPlayPrefix fmt name pd ps).announceCalls =
        ps.announceCalls ++ [⟨name, decide (2 < ps.savedProgress), pd, false⟩]) := by
  refine ⟨?_, rfl, fun d => rfl, fun d => rfl, rfl, ?_⟩
  · simp [announcePodcastNameAndWait, hb, ha]
  · intro ps hps
    constructor
    · simp [handlePlayPrefix, hps]
    · simp [handleCanPlayPrefix, hps]

/-- Witness for claim C4 at a concrete idle engine and player state. -/
theorem announce_spoken_text_concrete :
    (announcePodcastNameAndWait fmtW (⟨false, true, [], 0⟩ : EngineState)
        "B" true (some "2025-01-07T09:00:00Z") false).1.utterances =
      [] ++ [announceText fmtW "B" true (some "2025-01-07T09:00:00Z") false] ∧
    announceText fmtW "B" true (some "2025-01-07T09:00:00Z") true = "B" ∧
    (handlePlayPrefix fmtW "B" (some "2025-01-07T09:00:00Z")
        (⟨false, false, false, true, 0, 0, 0, 5, [], ⟨false, true, [], 0⟩⟩ : PlayerState)).announceCalls =
      [] ++ [⟨"B", decide ((2 : ℚ) < 5), some "2025-01-07T09:00:00Z", false⟩] := by
  obtain ⟨h1, h2, _, _, _, h6⟩ := announce_spoken_text fmtW ⟨false, true, [], 0⟩
    "B" true (some "2025-01-07T09:00:00Z") false rfl rfl
  exact ⟨h1, h2, (h6 ⟨false, false, false, true, 0, 0, 0, 5, [], ⟨false, true, [], 0⟩⟩ rfl).1⟩

/-- Claim C9: after `cancelAnnouncement` the busy flag is false, so a
subsequent `announce` with speech synthesis available is not
short-circuited: it creates and speaks a new utterance. -/
theorem cancel_then_announce_speaks (e : EngineState) (fmt : DateFmt)
    (name : String) (c : Bool) (pd : Option String) (sp : Bool)
    (h : e.speechAvailable = true) :
    (cancelAnnouncement e).isAnnouncing = false ∧
    (announcePodcastNameAndWait fmt (cancelAnnouncement e) name c pd sp).2 =
      .speaking (announceText fmt name c pd sp) ∧
    (announcePodcastNameAndWait fmt (cancelAnnouncement e) name c pd sp).1.utterances =
      e.utterances ++ [announceText fmt name c pd sp] := by
  refine ⟨rfl, ?_, ?_⟩ <;> simp [announcePodcastNameAndWait, cancelAnnouncement, h]

/-- Witness for claim C9: cancel a busy engine, then announce. -/
theorem cancel_then_announce_speaks_concrete :
    (cancelAnnouncement (⟨true, true, ["old"], 0⟩ : EngineState)).isAnnouncing = false ∧
    (announcePodcastNameAndWait fmtW
        (cancelAnnouncement (⟨true, true, ["old"], 0⟩ : EngineState))
        "A" false none false).2 = .speaking (announceText fmtW "A" false none false) ∧
    (announcePodcastNameAndWait fmtW
        (cancelAnnouncement (⟨true, true, ["old"], 0⟩ : EngineState))
        "A" false none false).1.utterances =
      ["old"] ++ [announceText fmtW "A" false none false] :=
  cancel_then_announce_speaks ⟨true, true, ["old"], 0⟩ fmtW "A" false none false rfl

/-! ### Playback coordinator theorems -/

/-- One guarded prefix preserves the announcement-count invariant: the call
count stays at most one, and is zero while the flag is still unset. -/
lemma runPrefix_invariant (fmt : DateFmt) (src : String) (pd : Option String)
    (p : TriggerPath) (s : PlayerState)
    (h1 : s.announceCalls.length ≤ 1)
    (h2 : s.announcedRef = false → s.announceCalls.length = 0) :
    (runPrefix fmt src pd p s).announceCalls.length ≤ 1 ∧
    ((runPrefix fmt src pd p s).announcedRef = false →
      (runPrefix fmt src pd p s).announceCalls.length = 0) := by
  cases p with
  | canPlay =>
      cases ha : s.announcedRef with
      | true => simp [runPrefix, handleCanPlayPrefix, ha, h1]
      | false => simp [runPrefix, handleCanPlayPrefix, ha, h2 ha]
  | userPlay =>
      cases ha : s.announcedRef with
      | true => simp [runPrefix, handlePlayPrefix, ha, h1]
      | false => simp [runPrefix, handlePlayPrefix, ha, h2 ha]

/-- The invariant carried through any interleaving of guarded prefixes. -/
lemma runPrefixes_invariant (fmt : DateFmt) (src : String) (pd : Option String)
    (ps : List TriggerPath) (s : PlayerState)
    (h1 : s.announceCalls.length ≤ 1)
    (h2 : s.announcedRef = false → s.announceCalls.length = 0) :
    (runPrefixes fmt src pd ps s).announceCalls.length ≤ 1 := by
  induction ps generalizing s with
  | nil => exact h1
  | cons p ps ih =>
      have h := runPrefix_invariant fmt src pd p s h1 h2
      exact ih (runPrefix fmt src pd p s) h.1 h.2

/-- Claim C1: for one episode activation (flag freshly reset, no calls yet),
any interleaving of the user-play and buffer-ready guarded prefixes makes at
most one `announce` call; and a path that observes the flag already set
performs no announce, pause, seek, or play and leaves the engine untouched. -/
theorem at_most_one_announcement_per_activation (fmt : DateFmt) (src : String)
    (pd : Option String) (ps : List TriggerPath) (s : PlayerState)
    (h1 : s.announcedRef = false) (h2 : s.announceCalls = []) :
    (runPrefixes fmt src pd ps s).announceCalls.length ≤ 1 ∧
    (∀ s2 : PlayerState, s2.announcedRef = true → ∀ p,
      (runPrefix fmt src pd p s2).announceCalls = s2.announceCalls ∧
      (runPrefix fmt src pd p s2).pauseCalls = s2.pauseCalls ∧
      (runPrefix fmt src pd p s2).currentTime = s2.currentTime ∧
      (runPrefix fmt src pd p s2).playCalls = s2.playCalls ∧
      (runPrefix fmt src pd p s2).engine = s2.engine) := by
  constructor
  · exact runPrefixes_invariant fmt src pd ps s (by simp [h2]) (fun _ => by simp [h2])
  · intro s2 hs2 p
    cases p <;> simp [runPrefix, handleCanPlayPrefix, handlePlayPrefix, hs2]

/-- Witness for claim C1: both paths fire back to back from a fresh
activation; only one announce call results, and a prefix run on an
already-announced state changes nothing observable. -/
theorem at_most_one_announcement_concrete :
    (runPrefixes fmtW "A" none [.userPlay, .canPlay]
        (⟨false, true, false, true, 0, 0, 0, 0, [], ⟨false, true, [], 0⟩⟩ :
          PlayerState)).announceCalls.length ≤ 1 ∧
    (runPrefix fmtW "A" none .canPlay
        (⟨true, false, false, false, 1, 0, 0, 0,
          [⟨"A", false, none, false⟩], ⟨true, true, ["From A."], 1⟩⟩ :
          PlayerState)).announceCalls = [⟨"A", false, none, false⟩] := by
  have h := at_most_one_announcement_per_activation fmtW "A" none
    [.userPlay, .canPlay]
    ⟨false, true, false, true, 0, 0, 0, 0, [], ⟨false, true, [], 0⟩⟩ rfl rfl
  exact ⟨h.1, (h.2 ⟨true, false, false, false, 1, 0, 0, 0,
    [⟨"A", false, none, false⟩], ⟨true, true, ["From A."], 1⟩⟩ rfl .canPlay).1⟩

/-- Claim C10: in both announce-then-play suffixes, a positive saved offset
is written to `currentTime` before the result is inspected, so the seek
happens even when the announcement was interrupted — only the `play()` call
is skipped then. -/
theorem seek_happens_before_result_branch (s : PlayerState) (r : AnnounceResult)
    (h : 0 < s.savedProgress) :
    (handleCanPlaySuffix r s).currentTime = s.savedProgress ∧
    (handlePlaySuffix r s).currentTime = s.savedProgress ∧
    (r = .interrupted →
      (handleCanPlaySuffix r s).playCalls = s.playCalls ∧
      (handlePlaySuffix r s).playCalls = s.playCalls) := by
  refine ⟨?_, ?_, ?_⟩
  · cases r <;> simp [handleCanPlaySuffix, h]
  · cases r <;> simp [handlePlaySuffix, h]
  · rintro rfl
    constructor <;> simp [handleCanPlaySuffix, handlePlaySuffix, h]

/-- Witness for claim C10 at saved offset 42 and an interrupted result. -/
theorem seek_happens_before_result_branch_concrete :
    (handleCanPlaySuffix .interrupted
        (⟨true, true, false, true, 1, 0, 0, 42, [], ⟨true, true, [], 1⟩⟩ :
          PlayerState)).currentTime = 42 ∧
    (handleCanPlaySuffix .interrupted
        (⟨true, true, false, true, 1, 0, 0, 42, [], ⟨true, true, [], 1⟩⟩ :
          PlayerState)).playCalls = 0 := by
  have h := seek_happens_before_result_branch
    ⟨true, true, false, true, 1, 0, 0, 42, [], ⟨true, true, [], 1⟩⟩ .interrupted
    (by norm_num)
  exact ⟨h.1, (h.2.2 rfl).1⟩

/-! ### Media-session theorems -/

/-- Claim C8: the hardware/lock-screen previous-track and next-track
handlers (with the corresponding callback wired, as in the app) cancel any
in-flight speech, set the skip-pending flag, apply the sequencer index
change, and schedule a play attempt after 250 ms — for every starting
state, hence independently of the announcement flow's progress. -/
theorem media_skip_handlers (s : AppState) :
    (mediaPreviousTrack s).skipJustHappened = true ∧
    (mediaPreviousTrack s).engine.isAnnouncing = false ∧
    (mediaPreviousTrack s).engine.cancels = s.engine.cancels + 1 ∧
    (mediaPreviousTrack s).seq = handlePrevious s.seq ∧
    (mediaPreviousTrack s).scheduled = s.scheduled ++ [(250, .playAttempt)] ∧
    (mediaNextTrack s).skipJustHappened = true ∧
    (mediaNextTrack s).engine.isAnnouncing = false ∧
    (mediaNextTrack s).engine.cancels = s.engine.cancels + 1 ∧
    (mediaNextTrack s).seq = handleNext s.seq ∧
    (mediaNextTrack s).scheduled = s.scheduled ++ [(250, .playAttempt)] :=
  ⟨rfl, rfl, rfl, rfl, rfl, rfl, rfl, rfl, rfl, rfl⟩

/-! ### Natural end-of-track: the composed app at the last episode -/

/-- The composed state in which the last of three episodes has just ended:
`EpisodeList` holds index 2, progress 42 is saved for that episode, the
speech engine is idle and available. -/
def lastEndState : AppState :=
  { seq := ⟨[epA, epB, epC], .int 2⟩,
    store := ⟨fun k => if k = progressKey "c.mp3" then some 42 else none, none⟩,
    skipJustHappened := false,
    engine := ⟨false, true, [], 0⟩,
    announceCalls := [],
    scheduled := [] }

/-- Claim C2, evaluated on the composed code at the failing input:
`EpisodeList` passes `onEnded={handleNext}` and omits `isLastEpisode`, so
when the last episode (index 2 of 3) ends naturally the saved progress is
cleared, but no farewell is announced (no announce call, no utterance) and
the index advances to 1 instead of staying at 2 — contradicting the claim
and the repository's own description of the farewell feature. -/
theorem last_episode_end_divergence :
    (episodeListHandleEnded fmtW lastEndState).store.entries (progressKey "c.mp3")
        = none ∧
    (episodeListHandleEnded fmtW lastEndState).announceCalls = [] ∧
    (episodeListHandleEnded fmtW lastEndState).engine.utterances = [] ∧
    (episodeListHandleEnded fmtW lastEndState).seq.currentIndex = .int 1 := by
  refine ⟨?_, rfl, rfl, ?_⟩ <;> decide

end Podcast
